import Mathlib

set_option maxHeartbeats 1000000

/-!
Shallow embedding of the request-dispatch and redirect-following engine of the
HTTP client in `src/client.rs` (`Client::request`, `Client::single_request`,
`Client::connect_tcp`, `Client::connect_tls`,
`get_and_validate_socket_addresses`, `set_header_fallback`).

The wire codec, the DNS resolver and the TCP/TLS transports are external
collaborators of that file; they are represented by a record of oracle
functions (`NetOracle`) and every network operation the client performs is
additionally recorded in a ghost trace of `NetEvent`s, so that theorems can
speak about which operations were attempted and in which order.  The value
types of the `model` module (methods, headers, URLs) are not part of the
source under scrutiny and are modelled from the spec where noted.
-/

/-- Header names, modelled as strings.  The header-name value type of the
repository normalises its text to lowercase at construction, so plain string
equality models its case-insensitive comparison. -/
abbrev HeaderName := String

/-- Header values, modelled as strings (the claims under study never exercise
non-UTF-8 header values, so `HeaderValue::to_str` is total here). -/
abbrev HeaderValue := String

/-- Modelled from the spec: the HTTP method enumeration of the `model`
module. -/
inductive Method
  | GET
  | HEAD
  | POST
  | PUT
  | DELETE
  | CONNECT
  | OPTIONS
  | TRACE
  | PATCH
deriving DecidableEq

/-- Modelled from the spec: a "safe" method is one defined to have no side
effects (GET and HEAD, and also OPTIONS and TRACE per RFC 9110); POST, PUT,
DELETE, CONNECT and PATCH are unsafe. -/
def Method.is_safe : Method → Bool
  | Method.GET => true
  | Method.HEAD => true
  | Method.OPTIONS => true
  | Method.TRACE => true
  | _ => false

/-- Status codes are bare naturals; the named constants below are the ones the
redirect logic inspects. -/
def Status.MOVED_PERMANENTLY : Nat := 301

/-- Status 302. -/
def Status.FOUND : Nat := 302

/-- Status 303. -/
def Status.SEE_OTHER : Nat := 303

/-- Status 307. -/
def Status.TEMPORARY_REDIRECT : Nat := 307

/-- Status 308. -/
def Status.PERMANENT_REDIRECT : Nat := 308

/-- Modelled from the spec: the header collection is a name-to-value map with
first-or-overwrite semantics per `set`; it is carried as the underlying entry
list, in insertion order. -/
structure Headers where
  entries : List (HeaderName × HeaderValue)
deriving DecidableEq

/-- Lookup of the first entry with the given name. -/
def Headers.getEntry : List (HeaderName × HeaderValue) → HeaderName → Option HeaderValue
  | [], _ => none
  | p :: rest, n => if p.1 = n then some p.2 else Headers.getEntry rest n

/-- `Headers::get`: the value stored under a name, if any. -/
def Headers.get (h : Headers) (n : HeaderName) : Option HeaderValue :=
  Headers.getEntry h.entries n

/-- Overwrite the first entry carrying the name, or append a fresh entry. -/
def Headers.setEntry : List (HeaderName × HeaderValue) → HeaderName → HeaderValue →
    List (HeaderName × HeaderValue)
  | [], n, v => [(n, v)]
  | p :: rest, n, v => if p.1 = n then (n, v) :: rest else p :: Headers.setEntry rest n v

/-- `Headers::set`: first-or-overwrite insertion. -/
def Headers.set (h : Headers) (n : HeaderName) (v : HeaderValue) : Headers :=
  ⟨Headers.setEntry h.entries n v⟩

/-- `Headers::contains`. -/
def Headers.contains (h : Headers) (n : HeaderName) : Bool :=
  (h.get n).isSome

/-- The empty header collection (what `Request::builder` starts from). -/
def Headers.empty : Headers := ⟨[]⟩

/-- The names of a header collection are pairwise distinct.  This holds for
every collection built through `Headers.set` alone. -/
def Headers.NamesNodup (h : Headers) : Prop :=
  (h.entries.map Prod.fst).Nodup

instance (h : Headers) : Decidable h.NamesNodup := by
  unfold Headers.NamesNodup; infer_instance

/-- The `HeaderName::USER_AGENT` constant. -/
def HeaderName.USER_AGENT : HeaderName := "user-agent"

/-- The `HeaderName::CONNECTION` constant. -/
def HeaderName.CONNECTION : HeaderName := "connection"

/-- The `HeaderName::LOCATION` constant. -/
def HeaderName.LOCATION : HeaderName := "location"

/-- The literal value the client forces onto the `Connection` header. -/
def connection_close : HeaderValue := "close"

/-- Modelled from the spec: the URL value type of the `model` module, reduced
to the components the client inspects.  In the underlying URL library,
`host_str` returns a value exactly when `host` does, so a single optional host
component backs both accessors. -/
structure Url where
  scheme : String
  host : Option String
  port : Option Nat
  path : String
deriving DecidableEq

/-- `Url::host_str`, which is `some` exactly when `Url::host` is. -/
def Url.host_str (u : Url) : Option String := u.host

/-- A display rendering of a URL, used only inside error messages. -/
def Url.render (u : Url) : String :=
  u.scheme ++ "://" ++
    (match u.host with
     | some h => h
     | none => "") ++
    (match u.port with
     | some p => ":" ++ toString p
     | none => "") ++
    u.path

/-- Modelled from the spec: a resolved network endpoint, kept abstract as its
textual form. -/
abbrev SocketAddr := String

/-- Modelled from the spec: an opened transport stream, kept abstract as an
identifier. -/
abbrev NetStream := Nat

/-- The error kinds of `std::io::Error` the client constructs or observes. -/
inductive ErrorKind
  | invalidInput
  | invalidData
  | other
deriving DecidableEq

/-- An `std::io::Error`: a kind together with a message. -/
structure IOError where
  kind : ErrorKind
  msg : String
deriving DecidableEq

/-- `utils::invalid_input_error` (repository code outside `src/`): an error of
kind `InvalidInput`. -/
def invalid_input_error (m : String) : IOError :=
  ⟨ErrorKind.invalidInput, m⟩

/-- `utils::invalid_data_error` (repository code outside `src/`): an error of
kind `InvalidData`. -/
def invalid_data_error (m : String) : IOError :=
  ⟨ErrorKind.invalidData, m⟩

/-- A request: method, target URL and header collection.  The body plays no
role in the dispatch and redirect logic and is omitted. -/
structure Request where
  method : Method
  url : Url
  headers : Headers
deriving DecidableEq

/-- A response: status code and header collection (body omitted, as above). -/
structure Response where
  status : Nat
  headers : Headers
deriving DecidableEq

/-- The per-client configuration (`struct Client`): optional global timeout
(a duration, abstracted to a natural number), optional default `User-Agent`
value, and the redirection limit (default 0). -/
structure Client where
  timeout : Option Nat
  user_agent : Option HeaderValue
  redirection_limit : Nat

/-- The external collaborators consumed by one attempt: DNS resolution
(`lunatic::net::resolve`), the plain and TLS connectors (with and without the
timeout variant), and the wire exchange (`encode_request` followed by
`decode_response`). -/
structure NetOracle where
  resolve : String → Except IOError (List SocketAddr)
  tcpConnect : SocketAddr → Except IOError NetStream
  tcpConnectTimeout : Nat → SocketAddr → Except IOError NetStream
  tlsConnect : String → Nat → Except IOError NetStream
  tlsConnectTimeout : String → Nat → Nat → Except IOError NetStream
  exchange : Request → NetStream → Except IOError Response

/-- Ghost record of one network-touching operation performed by the client. -/
inductive NetEvent
  | resolveEv (target : String)
  | tcpConnectEv (addr : SocketAddr) (timeout : Option Nat)
  | tlsConnectEv (host : String) (port : Nat) (timeout : Option Nat)
  | exchangeEv
deriving DecidableEq

/-- `set_header_fallback`: set the header only when a fallback value is
configured and the request does not already carry the header. -/
def set_header_fallback (request : Request) (header_name : HeaderName)
    (header_value : Option HeaderValue) : Request :=
  match header_value with
  | some v =>
      if request.headers.contains header_name then request
      else { request with headers := request.headers.set header_name v }
  | none => request

/-- The header-mutation prefix of `Client::single_request`: apply the
`User-Agent` fallback, then unconditionally set `Connection: close`. -/
def Client.prepare_request (c : Client) (request : Request) : Request :=
  let request := set_header_fallback request HeaderName.USER_AGENT c.user_agent
  { request with headers := request.headers.set HeaderName.CONNECTION connection_close }

/-- The port chosen by `get_and_validate_socket_addresses`: the URL's explicit
port if present, else the given default. -/
def resolution_port (url : Url) (default_port : Nat) : Nat :=
  match url.port with
  | some port => port
  | none => default_port

/-- The message of the synthetic error seeding the connect fold. -/
def not_resolved_msg : String := "Not able to resolve the provide addresses"

/-- The message of the missing-host error. -/
def host_not_set_msg : String := "host not set"

/-- The message of the DNS-resolution-failure error, naming the host. -/
def dns_error_msg (h : String) : String :=
  "cant DNS resole the url: " ++ h

/-- The message of the unsupported-scheme error. -/
def scheme_error_msg (s : String) : String :=
  "Not supported URL scheme: " ++ s

/-- The message of the too-many-redirects error, naming the redirection
budget and the last redirection target. -/
def too_many_redirects_msg (n : Nat) (u : Url) : String :=
  "The server requested too many redirects (" ++ toString n ++
    "). The latest redirection target is " ++ u.render

/-- The message of the invalid-`Location` error (the join failure detail of
the underlying URL library is abstracted away). -/
def invalid_location_msg (location : String) : String :=
  "Invalid URL in Location header raising error: " ++ location

/-- `get_and_validate_socket_addresses`: pick the port, require a host, and
resolve `host:port`.  The `url.host().unwrap()` inside the resolution-failure
branch is modelled by an outer `Option`: a `none` result stands for a Rust
panic of that `unwrap`. -/
def get_and_validate_socket_addresses (net : NetOracle) (url : Url)
    (default_port : Nat) :
    Option (Except IOError (List SocketAddr) × List NetEvent) :=
  let port := resolution_port url default_port
  match url.host_str with
  | none => some (Except.error ⟨ErrorKind.other, host_not_set_msg⟩, [])
  | some host =>
      let target := host ++ ":" ++ toString port
      match net.resolve target with
      | Except.ok x => some (Except.ok x, [NetEvent.resolveEv target])
      | Except.error _ =>
          match url.host with
          | none => none
          | some h =>
              some (Except.error ⟨ErrorKind.other, dns_error_msg h⟩,
                [NetEvent.resolveEv target])

/-- Total wrapper of `get_and_validate_socket_addresses`; the default is never
used (the panic branch is unreachable, see `dns_failure_branch_no_panic`). -/
def get_and_validate_total (net : NetOracle) (url : Url) (default_port : Nat) :
    Except IOError (List SocketAddr) × List NetEvent :=
  (get_and_validate_socket_addresses net url default_port).getD
    (Except.error ⟨ErrorKind.other, host_not_set_msg⟩, [])

/-- One connect attempt of `Client::connect_tcp`: the timed variant when a
global timeout is configured, the plain variant otherwise. -/
def tcp_connect_once (c : Client) (net : NetOracle) (addr : SocketAddr) :
    Except IOError NetStream :=
  match c.timeout with
  | some timeout => net.tcpConnectTimeout timeout addr
  | none => net.tcpConnect addr

/-- The fold step of `Client::connect_tcp`: keep an already-opened stream,
otherwise attempt the next candidate (recording the attempt). -/
def connect_tcp_step (c : Client) (net : NetOracle)
    (acc : Except IOError NetStream × List NetEvent) (addr : SocketAddr) :
    Except IOError NetStream × List NetEvent :=
  match acc.1 with
  | Except.ok stream => (Except.ok stream, acc.2)
  | Except.error _ =>
      (tcp_connect_once c net addr, acc.2 ++ [NetEvent.tcpConnectEv addr c.timeout])

/-- `Client::connect_tcp`: fold the candidates over the synthetic
`InvalidInput` seed, short-circuiting on the first opened stream. -/
def Client.connect_tcp (c : Client) (net : NetOracle)
    (addresses : List SocketAddr) : Except IOError NetStream × List NetEvent :=
  addresses.foldl (connect_tcp_step c net)
    (Except.error (invalid_input_error not_resolved_msg), [])

/-- `Client::connect_tls`: require a host, pick the explicit port or 443, and
make a single TLS connection to `host:port` (the timed variant when a global
timeout is configured). -/
def Client.connect_tls (c : Client) (net : NetOracle) (url : Url) :
    Except IOError NetStream × List NetEvent :=
  match url.host with
  | none => (Except.error (invalid_input_error not_resolved_msg), [])
  | some host =>
      let port :=
        match url.port with
        | some p => p
        | none => 443
      match c.timeout with
      | some timeout =>
          (net.tlsConnectTimeout host timeout port,
           [NetEvent.tlsConnectEv host port (some timeout)])
      | none =>
          (net.tlsConnect host port, [NetEvent.tlsConnectEv host port none])

/-- The dispatch core of `Client::single_request`, after the header mutations:
branch on the URL scheme, resolve, connect (plain or TLS) and exchange. -/
def Client.single_request_core (c : Client) (net : NetOracle)
    (request : Request) : Except IOError Response × List NetEvent :=
  if request.url.scheme = "http" then
    match get_and_validate_total net request.url 80 with
    | (Except.error e, evs) => (Except.error e, evs)
    | (Except.ok addresses, evs) =>
        match Client.connect_tcp c net addresses with
        | (Except.error e, evs2) => (Except.error e, evs ++ evs2)
        | (Except.ok stream, evs2) =>
            (net.exchange request stream, evs ++ evs2 ++ [NetEvent.exchangeEv])
  else if request.url.scheme = "https" then
    match get_and_validate_total net request.url 443 with
    | (Except.error e, evs) => (Except.error e, evs)
    | (Except.ok _addresses, evs) =>
        match Client.connect_tls c net request.url with
        | (Except.error e, evs2) => (Except.error e, evs ++ evs2)
        | (Except.ok stream, evs2) =>
            (net.exchange request stream, evs ++ evs2 ++ [NetEvent.exchangeEv])
  else
    (Except.error (invalid_input_error (scheme_error_msg request.url.scheme)), [])

/-- `Client::single_request`: mutate the headers in place (the request is
passed by `&mut`, so the caller observes the mutated request, returned here as
the first component), then dispatch. -/
def Client.single_request (c : Client) (net : NetOracle) (request : Request) :
    Request × Except IOError Response × List NetEvent :=
  let request := Client.prepare_request c request
  (request, Client.single_request_core c net request)

/-- The method rewrite of the redirect loop (the `match response.status()`
inside `Client::request`): `some` is a follow with the given next method,
`none` falls to the `_ => return Ok(response)` arm. -/
def redirect_method (status : Nat) (previous_method : Method) : Option Method :=
  if status = Status.MOVED_PERMANENTLY ∨ status = Status.FOUND ∨
      status = Status.SEE_OTHER then
    some (if previous_method = Method.HEAD then Method.HEAD else Method.GET)
  else if (status = Status.TEMPORARY_REDIRECT ∨ status = Status.PERMANENT_REDIRECT) ∧
      previous_method.is_safe then
    some previous_method
  else
    none

/-- The request built when a redirect is followed: `Request::builder` with the
computed method and resolved URL, then every header of the just-sent request
copied onto it in order. -/
def build_redirect (new_method : Method) (new_url : Url) (request : Request) :
    Request :=
  { method := new_method, url := new_url,
    headers := request.headers.entries.foldl (fun h p => h.set p.1 p.2) Headers.empty }

instance {ε α : Type} [DecidableEq ε] [DecidableEq α] : DecidableEq (Except ε α) :=
  fun a b =>
    match a, b with
    | Except.ok x, Except.ok y =>
        if h : x = y then isTrue (by rw [h]) else isFalse (by intro hc; cases hc; exact h rfl)
    | Except.error x, Except.error y =>
        if h : x = y then isTrue (by rw [h]) else isFalse (by intro hc; cases hc; exact h rfl)
    | Except.ok _, Except.error _ => isFalse (by intro hc; cases hc)
    | Except.error _, Except.ok _ => isFalse (by intro hc; cases hc)

/-- One network attempt as observed by the redirect loop: the request that was
handed to the wire (after header mutation) and the outcome. -/
structure Attempt where
  sent : Request
  result : Except IOError Response
deriving DecidableEq

/-- The `for _ in 0..(redirection_limit + 1)` loop body of `Client::request`,
with the remaining iteration budget as fuel.  Alongside the result it returns
the ghost list of attempts performed (one per `single_request` invocation).
URL joining (`Url::join`) is an external collaborator, passed as `join`. -/
def Client.request_loop (c : Client) (net : NetOracle)
    (join : Url → String → Option Url) :
    Nat → Request → Except IOError Response × List Attempt
  | 0, request =>
      (Except.error
        ⟨ErrorKind.other,
         too_many_redirects_msg (c.redirection_limit + 1) request.url⟩, [])
  | f+1, request =>
      match Client.single_request c net request with
      | (request2, Except.error e, _evs) =>
          (Except.error e, [⟨request2, Except.error e⟩])
      | (request2, Except.ok response, _evs) =>
          match response.headers.get HeaderName.LOCATION with
          | none => (Except.ok response, [⟨request2, Except.ok response⟩])
          | some location =>
              match redirect_method response.status request.method with
              | none => (Except.ok response, [⟨request2, Except.ok response⟩])
              | some new_method =>
                  match join request2.url location with
                  | none =>
                      (Except.error (invalid_data_error (invalid_location_msg location)),
                       [⟨request2, Except.ok response⟩])
                  | some new_url =>
                      (Prod.fst (Client.request_loop c net join f
                          (build_redirect new_method new_url request2)),
                       ⟨request2, Except.ok response⟩ ::
                         Prod.snd (Client.request_loop c net join f
                           (build_redirect new_method new_url request2)))

/-- `Client::request`: run the loop with budget `redirection_limit + 1`. -/
def Client.request (c : Client) (net : NetOracle)
    (join : Url → String → Option Url) (request : Request) :
    Except IOError Response × List Attempt :=
  Client.request_loop c net join (c.redirection_limit + 1) request

/-! ## Basic lemmas about the header collection -/

theorem getEntry_setEntry_self (l : List (HeaderName × HeaderValue))
    (n : HeaderName) (v : HeaderValue) :
    Headers.getEntry (Headers.setEntry l n v) n = some v := by
  induction l with
  | nil => simp [Headers.setEntry, Headers.getEntry]
  | cons p rest ih =>
      by_cases h : p.1 = n
      · simp [Headers.setEntry, Headers.getEntry, h]
      · simp [Headers.setEntry, Headers.getEntry, h, ih]

theorem getEntry_setEntry_ne (l : List (HeaderName × HeaderValue))
    (n m : HeaderName) (v : HeaderValue) (hnm : m ≠ n) :
    Headers.getEntry (Headers.setEntry l n v) m = Headers.getEntry l m := by
  have hnm2 : ¬(n = m) := fun h => hnm h.symm
  induction l with
  | nil => simp only [Headers.setEntry, Headers.getEntry, if_neg hnm2]
  | cons p rest ih =>
      by_cases h : p.1 = n
      · have hpm : ¬(p.1 = m) := by rw [h]; exact hnm2
        simp only [Headers.setEntry, if_pos h, Headers.getEntry, if_neg hnm2, if_neg hpm]
      · simp only [Headers.setEntry, if_neg h, Headers.getEntry]
        by_cases h2 : p.1 = m
        · simp [h2]
        · simp [h2, ih]

theorem Headers.get_set_self (h : Headers) (n : HeaderName) (v : HeaderValue) :
    (h.set n v).get n = some v :=
  getEntry_setEntry_self h.entries n v

theorem Headers.get_set_ne (h : Headers) (n m : HeaderName) (v : HeaderValue)
    (hnm : m ≠ n) : (h.set n v).get m = h.get m :=
  getEntry_setEntry_ne h.entries n m v hnm

theorem getEntry_eq_none_of_not_mem (l : List (HeaderName × HeaderValue))
    (n : HeaderName) (hn : n ∉ l.map Prod.fst) :
    Headers.getEntry l n = none := by
  induction l with
  | nil => rfl
  | cons p rest ih =>
      simp only [List.map_cons, List.mem_cons] at hn
      push_neg at hn
      have h1 : ¬(p.1 = n) := fun h => hn.1 h.symm
      simp [Headers.getEntry, h1, ih hn.2]

theorem mem_of_getEntry_some (l : List (HeaderName × HeaderValue))
    (n : HeaderName) (v : HeaderValue) (h : Headers.getEntry l n = some v) :
    n ∈ l.map Prod.fst := by
  induction l with
  | nil => simp [Headers.getEntry] at h
  | cons p rest ih =>
      by_cases hp : p.1 = n
      · simp [List.map_cons, ← hp]
      · simp only [Headers.getEntry, hp, if_false] at h
        simp [List.map_cons, ih h]

/-- Folding `Headers.set` over entries leaves names it never touches at the
accumulator's value. -/
theorem fold_set_get_of_not_mem (l : List (HeaderName × HeaderValue))
    (acc : Headers) (n : HeaderName) (hn : n ∉ l.map Prod.fst) :
    (l.foldl (fun h p => h.set p.1 p.2) acc).get n = acc.get n := by
  induction l generalizing acc with
  | nil => rfl
  | cons p rest ih =>
      simp only [List.map_cons, List.mem_cons] at hn
      push_neg at hn
      simp only [List.foldl_cons]
      rw [ih (acc.set p.1 p.2) hn.2]
      exact Headers.get_set_ne acc p.1 n p.2 hn.1

/-- Folding `Headers.set` over a duplicate-free entry list reproduces each
stored value. -/
theorem fold_set_get_of_getEntry_some (l : List (HeaderName × HeaderValue))
    (acc : Headers) (n : HeaderName) (v : HeaderValue)
    (hnd : (l.map Prod.fst).Nodup) (hget : Headers.getEntry l n = some v) :
    (l.foldl (fun h p => h.set p.1 p.2) acc).get n = some v := by
  induction l generalizing acc with
  | nil => simp [Headers.getEntry] at hget
  | cons p rest ih =>
      simp only [List.map_cons, List.nodup_cons] at hnd
      by_cases hp : p.1 = n
      · simp only [Headers.getEntry, if_pos hp] at hget
        cases hget
        simp only [List.foldl_cons]
        rw [fold_set_get_of_not_mem rest (acc.set p.1 p.2) n (by rw [← hp]; exact hnd.1),
          hp, Headers.get_set_self]
      · simp only [Headers.getEntry, if_neg hp] at hget
        simp only [List.foldl_cons]
        exact ih (acc.set p.1 p.2) hnd.2 hget

/-! ## Basic lemmas about request preparation and the method rewrite -/

theorem set_header_fallback_url (r : Request) (n : HeaderName)
    (v : Option HeaderValue) : (set_header_fallback r n v).url = r.url := by
  cases v with
  | none => rfl
  | some x =>
      simp only [set_header_fallback]
      split <;> rfl

theorem set_header_fallback_method (r : Request) (n : HeaderName)
    (v : Option HeaderValue) : (set_header_fallback r n v).method = r.method := by
  cases v with
  | none => rfl
  | some x =>
      simp only [set_header_fallback]
      split <;> rfl

theorem prepare_request_url (c : Client) (r : Request) :
    (Client.prepare_request c r).url = r.url := by
  simp only [Client.prepare_request]
  exact set_header_fallback_url r _ _

theorem prepare_request_method (c : Client) (r : Request) :
    (Client.prepare_request c r).method = r.method := by
  simp only [Client.prepare_request]
  exact set_header_fallback_method r _ _

theorem single_request_fst (c : Client) (net : NetOracle) (r : Request) :
    (Client.single_request c net r).1 = Client.prepare_request c r := rfl

theorem build_redirect_method (m : Method) (u : Url) (r : Request) :
    (build_redirect m u r).method = m := rfl

theorem build_redirect_url (m : Method) (u : Url) (r : Request) :
    (build_redirect m u r).url = u := rfl

/-- On 301/302/303 the rewrite is `HEAD` for `HEAD` and `GET` otherwise. -/
theorem redirect_method_3xx (s : Nat) (m : Method)
    (hs : s = 301 ∨ s = 302 ∨ s = 303) :
    redirect_method s m =
      some (if m = Method.HEAD then Method.HEAD else Method.GET) := by
  rcases hs with h | h | h <;>
    simp [redirect_method, h, Status.MOVED_PERMANENTLY, Status.FOUND, Status.SEE_OTHER]

/-- A follow never turns a non-`HEAD` method into `HEAD`, nor drops `HEAD`. -/
theorem redirect_method_head_iff (s : Nat) (m m2 : Method)
    (h : redirect_method s m = some m2) :
    (m2 = Method.HEAD ↔ m = Method.HEAD) := by
  simp only [redirect_method] at h
  split at h
  · cases h
    by_cases hm : m = Method.HEAD <;> simp [hm]
  · split at h
    · cases h
      exact Iff.rfl
    · cases h

/-! ## Lemmas about the candidate-connect fold -/

/-- Once a stream is open, the fold carries it through unchanged. -/
theorem foldl_connect_step_ok (c : Client) (net : NetOracle)
    (l : List SocketAddr) (s : NetStream) (evs : List NetEvent) :
    l.foldl (connect_tcp_step c net) (Except.ok s, evs) = (Except.ok s, evs) := by
  induction l with
  | nil => rfl
  | cons a rest ih => simpa [connect_tcp_step] using ih

/-- If every candidate in the list fails, the fold starting from an error
keeps an error, attempting every candidate in order. -/
theorem foldl_connect_step_all_fail (c : Client) (net : NetOracle) :
    ∀ (l : List SocketAddr),
      (∀ b ∈ l, ∃ e, tcp_connect_once c net b = Except.error e) →
      ∀ (e0 : IOError) (evs : List NetEvent), ∃ e1,
        l.foldl (connect_tcp_step c net) (Except.error e0, evs) =
          (Except.error e1, evs ++ l.map (fun x => NetEvent.tcpConnectEv x c.timeout)) := by
  intro l
  induction l with
  | nil => intro _ e0 evs; exact ⟨e0, by simp⟩
  | cons a rest ih =>
      intro hall e0 evs
      obtain ⟨ea, hea⟩ := hall a (List.mem_cons_self a rest)
      have hrest : ∀ b ∈ rest, ∃ e, tcp_connect_once c net b = Except.error e :=
        fun b hb => hall b (List.mem_cons_of_mem a hb)
      obtain ⟨e1, he1⟩ := ih hrest ea (evs ++ [NetEvent.tcpConnectEv a c.timeout])
      refine ⟨e1, ?_⟩
      simp only [List.foldl_cons, connect_tcp_step, hea]
      rw [he1]
      simp

/-- If every candidate fails, the fold's resulting error is the one of the
last candidate attempted. -/
theorem foldl_connect_step_last_error (c : Client) (net : NetOracle) :
    ∀ (l : List SocketAddr) (hne : l ≠ []),
      (∀ b ∈ l, ∃ e, tcp_connect_once c net b = Except.error e) →
      ∀ (e0 : IOError) (evs : List NetEvent),
        l.foldl (connect_tcp_step c net) (Except.error e0, evs) =
          (tcp_connect_once c net (l.getLast hne),
           evs ++ l.map (fun x => NetEvent.tcpConnectEv x c.timeout)) := by
  intro l
  induction l with
  | nil => intro hne; exact absurd rfl hne
  | cons a rest ih =>
      intro hne hall e0 evs
      obtain ⟨ea, hea⟩ := hall a (List.mem_cons_self a rest)
      cases rest with
      | nil =>
          simp only [List.foldl_cons, connect_tcp_step, List.foldl_nil]
          simp [List.getLast, hea]
      | cons b rest2 =>
          have hrest : ∀ x ∈ b :: rest2, ∃ e, tcp_connect_once c net x = Except.error e :=
            fun x hx => hall x (List.mem_cons_of_mem a hx)
          have hstep : connect_tcp_step c net (Except.error e0, evs) a =
              (Except.error ea, evs ++ [NetEvent.tcpConnectEv a c.timeout]) := by
            simp [connect_tcp_step, hea]
          rw [List.foldl_cons, hstep,
            ih (by simp) hrest ea (evs ++ [NetEvent.tcpConnectEv a c.timeout])]
          have hlast : (a :: b :: rest2).getLast hne = (b :: rest2).getLast (by simp) :=
            List.getLast_cons (by simp)
          rw [hlast]
          simp

/-- First-success characterization of `Client::connect_tcp`: candidates before
the first successful one are attempted in order, the opened stream is
returned, and nothing after it is attempted. -/
theorem connect_tcp_first_success (c : Client) (net : NetOracle)
    (pre post : List SocketAddr) (a : SocketAddr) (s : NetStream)
    (hpre : ∀ b ∈ pre, ∃ e, tcp_connect_once c net b = Except.error e)
    (ha : tcp_connect_once c net a = Except.ok s) :
    Client.connect_tcp c net (pre ++ a :: post) =
      (Except.ok s, (pre ++ [a]).map (fun x => NetEvent.tcpConnectEv x c.timeout)) := by
  unfold Client.connect_tcp
  rw [List.foldl_append]
  obtain ⟨e1, he1⟩ :=
    foldl_connect_step_all_fail c net pre hpre (invalid_input_error not_resolved_msg) []
  rw [he1, List.foldl_cons]
  have hstep : connect_tcp_step c net
      (Except.error e1, [] ++ pre.map (fun x => NetEvent.tcpConnectEv x c.timeout)) a =
      (Except.ok s,
       ([] ++ pre.map (fun x => NetEvent.tcpConnectEv x c.timeout)) ++
         [NetEvent.tcpConnectEv a c.timeout]) := by
    simp [connect_tcp_step, ha]
  rw [hstep, foldl_connect_step_ok]
  simp

/-- `get_and_validate_socket_addresses` never panics: the `unwrap` in its
DNS-failure branch is only reached with the host already established. -/
theorem get_and_validate_isSome (net : NetOracle) (url : Url) (d : Nat) :
    (get_and_validate_socket_addresses net url d).isSome = true := by
  cases hh : url.host_str with
  | none => simp [get_and_validate_socket_addresses, hh]
  | some host =>
      have hh2 : url.host = some host := hh
      cases hres : net.resolve (host ++ ":" ++ toString (resolution_port url d)) with
      | ok x => simp [get_and_validate_socket_addresses, hh, hres]
      | error e => simp [get_and_validate_socket_addresses, hh, hh2, hres]

/-- When the URL has a host, `get_and_validate_socket_addresses` resolves
`host:port` (recording exactly that resolution) and maps a resolver failure to
the DNS error naming the host. -/
theorem get_and_validate_total_host (net : NetOracle) (url : Url) (d : Nat)
    (h : String) (hh : url.host = some h) :
    get_and_validate_total net url d =
      ((match net.resolve (h ++ ":" ++ toString (resolution_port url d)) with
        | Except.ok x => Except.ok x
        | Except.error _ => Except.error ⟨ErrorKind.other, dns_error_msg h⟩),
       [NetEvent.resolveEv (h ++ ":" ++ toString (resolution_port url d))]) := by
  have hh2 : url.host_str = some h := hh
  cases hres : net.resolve (h ++ ":" ++ toString (resolution_port url d)) with
  | ok x =>
      simp [get_and_validate_total, get_and_validate_socket_addresses, hh2, hres]
  | error e =>
      simp [get_and_validate_total, get_and_validate_socket_addresses, hh2, hh, hres]

/-- When the URL has a host, `Client::connect_tls` performs exactly one TLS
connection, to the URL's host and its explicit port or 443. -/
theorem connect_tls_single_attempt (c : Client) (net : NetOracle) (url : Url)
    (h : String) (hh : url.host = some h) :
    Client.connect_tls c net url =
      ((match c.timeout with
        | some timeout => net.tlsConnectTimeout h timeout (resolution_port url 443)
        | none => net.tlsConnect h (resolution_port url 443)),
       [NetEvent.tlsConnectEv h (resolution_port url 443) c.timeout]) := by
  cases ht : c.timeout <;>
    cases hp : url.port <;>
      simp [Client.connect_tls, hh, ht, resolution_port, hp]

/-- Under the "http" scheme, the first network operation of an attempt is the
resolution of `host:port` with the port of `resolution_port _ 80`. -/
theorem single_request_core_http_first_event (c : Client) (net : NetOracle)
    (r : Request) (h : String) (hh : r.url.host = some h)
    (hs : r.url.scheme = "http") :
    (Client.single_request_core c net r).2.head? =
      some (NetEvent.resolveEv (h ++ ":" ++ toString (resolution_port r.url 80))) := by
  unfold Client.single_request_core
  rw [if_pos hs, get_and_validate_total_host net r.url 80 h hh]
  cases hres : net.resolve (h ++ ":" ++ toString (resolution_port r.url 80)) with
  | error e => simp
  | ok addresses =>
      rcases hc : Client.connect_tcp c net addresses with ⟨res, evs2⟩
      cases res <;> simp [hc]

/-- Under the "https" scheme, the first network operation of an attempt is the
resolution of `host:port` with the port of `resolution_port _ 443`. -/
theorem single_request_core_https_first_event (c : Client) (net : NetOracle)
    (r : Request) (h : String) (hh : r.url.host = some h)
    (hs : r.url.scheme = "https") :
    (Client.single_request_core c net r).2.head? =
      some (NetEvent.resolveEv (h ++ ":" ++ toString (resolution_port r.url 443))) := by
  unfold Client.single_request_core
  rw [hs]
  rw [if_neg (by decide), if_pos rfl, get_and_validate_total_host net r.url 443 h hh]
  cases hres : net.resolve (h ++ ":" ++ toString (resolution_port r.url 443)) with
  | error e => simp
  | ok addresses =>
      rcases hc : Client.connect_tls c net r.url with ⟨res, evs2⟩
      cases res <;> simp [hc]

/-- The ghost events of address validation are at most one resolution. -/
theorem get_and_validate_total_events (net : NetOracle) (url : Url) (d : Nat) :
    (get_and_validate_total net url d).2 = [] ∨
      ∃ tg, (get_and_validate_total net url d).2 = [NetEvent.resolveEv tg] := by
  cases hh : url.host_str with
  | none =>
      left
      simp [get_and_validate_total, get_and_validate_socket_addresses, hh]
  | some host =>
      right
      have hh2 : url.host = some host := hh
      exact ⟨host ++ ":" ++ toString (resolution_port url d),
        congrArg Prod.snd (get_and_validate_total_host net url d host hh2)⟩

/-- The ghost events of `Client::connect_tls` are at most one TLS connect. -/
theorem connect_tls_events (c : Client) (net : NetOracle) (url : Url) :
    (Client.connect_tls c net url).2 = [] ∨
      ∃ ho po ti, (Client.connect_tls c net url).2 = [NetEvent.tlsConnectEv ho po ti] := by
  cases hh : url.host with
  | none =>
      left
      simp [Client.connect_tls, hh]
  | some host =>
      right
      exact ⟨host, resolution_port url 443, c.timeout,
        congrArg Prod.snd (connect_tls_single_attempt c net url host hh)⟩

/-- Under the "https" scheme, no per-candidate TCP connect is ever attempted:
the resolved candidates are ignored after validation. -/
theorem single_request_https_no_tcp_event (c : Client) (net : NetOracle)
    (r : Request) (hs : r.url.scheme = "https") :
    ∀ a t, NetEvent.tcpConnectEv a t ∉ (Client.single_request c net r).2.2 := by
  intro a t
  have hs2 : (Client.prepare_request c r).url.scheme = "https" := by
    rw [prepare_request_url]; exact hs
  show NetEvent.tcpConnectEv a t ∉
    (Client.single_request_core c net (Client.prepare_request c r)).2
  unfold Client.single_request_core
  rw [hs2, if_neg (by decide), if_pos rfl]
  rcases hv : get_and_validate_total net (Client.prepare_request c r).url 443 with ⟨va, evs⟩
  have hevs : ∀ x ∈ evs, ∃ tg, x = NetEvent.resolveEv tg := by
    intro x hx
    have h2 := congrArg Prod.snd hv
    rcases get_and_validate_total_events net (Client.prepare_request c r).url 443 with
      h0 | ⟨tg, h0⟩
    · rw [h2] at h0
      have h3 : evs = [] := h0
      rw [h3] at hx
      simp at hx
    · rw [h2] at h0
      have h3 : evs = [NetEvent.resolveEv tg] := h0
      rw [h3] at hx
      simp at hx
      exact ⟨tg, hx⟩
  cases va with
  | error e =>
      show NetEvent.tcpConnectEv a t ∉ evs
      intro hmem
      obtain ⟨tg, htg⟩ := hevs _ hmem
      cases htg
  | ok addresses =>
      rcases hc : Client.connect_tls c net (Client.prepare_request c r).url with ⟨res, evs2⟩
      have hevs2 : ∀ x ∈ evs2, ∃ ho po ti, x = NetEvent.tlsConnectEv ho po ti := by
        intro x hx
        have h2 := congrArg Prod.snd hc
        rcases connect_tls_events c net (Client.prepare_request c r).url with
          h0 | ⟨ho, po, ti, h0⟩
        · rw [h2] at h0
          have h3 : evs2 = [] := h0
          rw [h3] at hx
          simp at hx
        · rw [h2] at h0
          have h3 : evs2 = [NetEvent.tlsConnectEv ho po ti] := h0
          rw [h3] at hx
          simp at hx
          exact ⟨ho, po, ti, hx⟩
      cases res with
      | error e =>
          show NetEvent.tcpConnectEv a t ∉ evs ++ evs2
          intro hmem
          simp only [List.mem_append] at hmem
          rcases hmem with hm | hm
          · obtain ⟨tg, htg⟩ := hevs _ hm
            cases htg
          · obtain ⟨ho, po, ti, htg⟩ := hevs2 _ hm
            cases htg
      | ok stream =>
          show NetEvent.tcpConnectEv a t ∉ evs ++ evs2 ++ [NetEvent.exchangeEv]
          intro hmem
          simp only [List.append_assoc, List.mem_append, List.mem_singleton] at hmem
          rcases hmem with hm | hm | hm
          · obtain ⟨tg, htg⟩ := hevs _ hm
            cases htg
          · obtain ⟨ho, po, ti, htg⟩ := hevs2 _ hm
            cases htg
          · cases hm

/-! ## Lemmas about the redirect loop -/

/-- The loop performs at most `fuel` attempts. -/
theorem request_loop_length_le (c : Client) (net : NetOracle)
    (join : Url → String → Option Url) :
    ∀ (f : Nat) (r : Request),
      (Client.request_loop c net join f r).2.length ≤ f := by
  intro f
  induction f with
  | zero => intro r; simp [Client.request_loop]
  | succ f ih =>
      intro r
      simp only [Client.request_loop]
      split
      · simp
      · split
        · simp
        · split
          · simp
          · split
            · simp
            · simpa using Nat.succ_le_succ (ih _)

/-- The first attempt of the loop sends the prepared initial request. -/
theorem request_loop_first_sent (c : Client) (net : NetOracle)
    (join : Url → String → Option Url) :
    ∀ (f : Nat) (r : Request) (a : Attempt),
      ((Client.request_loop c net join f r).2)[0]? = some a →
      a.sent = Client.prepare_request c r := by
  intro f r a h
  cases f with
  | zero => simp [Client.request_loop] at h
  | succ f =>
      simp only [Client.request_loop] at h
      split at h
      · rename_i request2 e _evs heq
        simp only [List.getElem?_cons_zero, Option.some_inj] at h
        cases h
        exact (congrArg Prod.fst heq).symm
      · rename_i request2 response _evs heq
        split at h
        · simp only [List.getElem?_cons_zero, Option.some_inj] at h
          cases h
          exact (congrArg Prod.fst heq).symm
        · split at h
          · simp only [List.getElem?_cons_zero, Option.some_inj] at h
            cases h
            exact (congrArg Prod.fst heq).symm
          · split at h
            · simp only [List.getElem?_cons_zero, Option.some_inj] at h
              cases h
              exact (congrArg Prod.fst heq).symm
            · simp only [List.getElem?_cons_zero, Option.some_inj] at h
              cases h
              exact (congrArg Prod.fst heq).symm

/-- `HEAD`-ness of the sent method is invariant across the whole loop: an
attempt uses `HEAD` exactly when the original request did. -/
theorem request_loop_head_inv (c : Client) (net : NetOracle)
    (join : Url → String → Option Url) (M0 : Method) :
    ∀ (f : Nat) (r : Request), (r.method = Method.HEAD ↔ M0 = Method.HEAD) →
      ∀ a ∈ (Client.request_loop c net join f r).2,
        (a.sent.method = Method.HEAD ↔ M0 = Method.HEAD) := by
  intro f
  induction f with
  | zero =>
      intro r hr a ha
      simp [Client.request_loop] at ha
  | succ f ih =>
      intro r hr a ha
      simp only [Client.request_loop] at ha
      split at ha
      · rename_i request2 e _evs heq
        simp only [List.mem_singleton] at ha
        subst ha
        show request2.method = Method.HEAD ↔ M0 = Method.HEAD
        have h3 : request2 = Client.prepare_request c r := (congrArg Prod.fst heq).symm
        rw [h3, prepare_request_method]
        exact hr
      · rename_i request2 response _evs heq
        have h3 : request2 = Client.prepare_request c r := (congrArg Prod.fst heq).symm
        split at ha
        · simp only [List.mem_singleton] at ha
          subst ha
          show request2.method = Method.HEAD ↔ M0 = Method.HEAD
          rw [h3, prepare_request_method]
          exact hr
        · split at ha
          · simp only [List.mem_singleton] at ha
            subst ha
            show request2.method = Method.HEAD ↔ M0 = Method.HEAD
            rw [h3, prepare_request_method]
            exact hr
          · rename_i new_method heq3
            split at ha
            · simp only [List.mem_singleton] at ha
              subst ha
              show request2.method = Method.HEAD ↔ M0 = Method.HEAD
              rw [h3, prepare_request_method]
              exact hr
            · rename_i new_url heq4
              simp only [List.mem_cons] at ha
              rcases ha with ha | ha
              · subst ha
                show request2.method = Method.HEAD ↔ M0 = Method.HEAD
                rw [h3, prepare_request_method]
                exact hr
              · refine ih (build_redirect new_method new_url request2) ?_ a ha
                show new_method = Method.HEAD ↔ M0 = Method.HEAD
                exact (redirect_method_head_iff _ _ _ heq3).trans hr

/-- Structure of one unfolding of the loop: either it stops after the single
attempt, or it followed a redirect and recursed on the rebuilt request. -/
theorem request_loop_succ_shape (c : Client) (net : NetOracle)
    (join : Url → String → Option Url) (f : Nat) (r : Request) :
    (∃ x, (Client.request_loop c net join (f+1) r).2 = [x]) ∨
    (∃ response location new_method new_url,
      (Client.single_request c net r).2.1 = Except.ok response ∧
      response.headers.get HeaderName.LOCATION = some location ∧
      redirect_method response.status r.method = some new_method ∧
      join (Client.single_request c net r).1.url location = some new_url ∧
      (Client.request_loop c net join (f+1) r).2 =
        ⟨(Client.single_request c net r).1, Except.ok response⟩ ::
          (Client.request_loop c net join f
            (build_redirect new_method new_url (Client.single_request c net r).1)).2) := by
  simp only [Client.request_loop]
  split
  · rename_i request2 e _evs heq
    exact Or.inl ⟨_, rfl⟩
  · rename_i request2 response _evs heq
    have h3 : (Client.single_request c net r).1 = request2 := congrArg Prod.fst heq
    split
    · exact Or.inl ⟨_, rfl⟩
    · rename_i location heq2
      split
      · exact Or.inl ⟨_, rfl⟩
      · rename_i new_method heq3
        split
        · exact Or.inl ⟨_, rfl⟩
        · rename_i new_url heq4
          refine Or.inr ⟨response, location, new_method, new_url, ?_, heq2, heq3, ?_, ?_⟩
          · rw [heq]
          · rw [h3]
            exact heq4
          · rw [h3]

/-- Between two consecutive attempts of one call, the later request's method
is exactly the one computed by the redirect rewrite from the earlier
attempt's response and sent method. -/
theorem request_loop_consec (c : Client) (net : NetOracle)
    (join : Url → String → Option Url) :
    ∀ (f : Nat) (r : Request) (i : Nat) (a b : Attempt) (rsp : Response),
      ((Client.request_loop c net join f r).2)[i]? = some a →
      ((Client.request_loop c net join f r).2)[i+1]? = some b →
      a.result = Except.ok rsp →
      ∃ m, redirect_method rsp.status a.sent.method = some m ∧ b.sent.method = m := by
  intro f
  induction f with
  | zero =>
      intro r i a b rsp ha hb hres
      simp [Client.request_loop] at ha
  | succ f ih =>
      intro r i a b rsp ha hb hres
      rcases request_loop_succ_shape c net join f r with ⟨x, hT⟩ |
        ⟨response, location, new_method, new_url, h1, h2, h3, h4, hT⟩
      · rw [hT] at hb
        simp at hb
      · rw [hT] at ha hb
        cases i with
        | zero =>
            simp only [List.getElem?_cons_zero, Option.some_inj] at ha
            simp only [List.getElem?_cons_succ] at hb
            subst ha
            have hrr : response = rsp := by
              have h5 : Except.ok response = Except.ok rsp := hres
              cases h5
              rfl
            have hmeth : (Client.single_request c net r).1.method = r.method := by
              rw [single_request_fst, prepare_request_method]
            refine ⟨new_method, ?_, ?_⟩
            · show redirect_method rsp.status (Client.single_request c net r).1.method =
                some new_method
              rw [hmeth, ← hrr]
              exact h3
            · have h6 := request_loop_first_sent c net join f
                (build_redirect new_method new_url (Client.single_request c net r).1) b hb
              rw [h6, prepare_request_method, build_redirect_method]
        | succ i =>
            simp only [List.getElem?_cons_succ] at ha hb
            exact ih _ i a b rsp ha hb hres

/-- When the attempt succeeds with a redirect response whose rewrite and URL
join succeed, the loop recurses on the rebuilt request, recording the
attempt. -/
theorem request_loop_follows (c : Client) (net : NetOracle)
    (join : Url → String → Option Url) (f : Nat) (r : Request)
    (response : Response) (location : HeaderValue) (new_method : Method)
    (new_url : Url)
    (hsing : (Client.single_request c net r).2.1 = Except.ok response)
    (hloc : response.headers.get HeaderName.LOCATION = some location)
    (hrm : redirect_method response.status r.method = some new_method)
    (hjoin : join (Client.single_request c net r).1.url location = some new_url) :
    Client.request_loop c net join (f+1) r =
      ((Client.request_loop c net join f
          (build_redirect new_method new_url (Client.single_request c net r).1)).1,
       ⟨(Client.single_request c net r).1, Except.ok response⟩ ::
         (Client.request_loop c net join f
           (build_redirect new_method new_url (Client.single_request c net r).1)).2) := by
  simp only [Client.request_loop]
  split
  · rename_i request2 e _evs heq
    rw [heq] at hsing
    simp at hsing
  · rename_i request2 response2 _evs heq
    have hr2 : (Client.single_request c net r).1 = request2 := congrArg Prod.fst heq
    rw [heq] at hsing
    simp only [Prod.snd, Prod.fst, Except.ok.injEq] at hsing
    subst hsing
    split
    · rename_i heq2
      rw [heq2] at hloc
      simp at hloc
    · rename_i location2 heq2
      rw [heq2] at hloc
      simp only [Option.some_inj] at hloc
      subst hloc
      split
      · rename_i heq3
        rw [heq3] at hrm
        simp at hrm
      · rename_i new_method2 heq3
        rw [heq3] at hrm
        simp only [Option.some_inj] at hrm
        subst hrm
        rw [hr2] at hjoin
        split
        · rename_i heq4
          rw [heq4] at hjoin
          simp at hjoin
        · rename_i new_url2 heq4
          rw [heq4] at hjoin
          simp only [Option.some_inj] at hjoin
          subst hjoin
          rw [hr2]

/-- When the attempt succeeds but the response carries no redirect signal the
loop follows (no `Location`, or a status/method the rewrite rejects), the
response is returned as-is after exactly this one attempt. -/
theorem request_loop_stops (c : Client) (net : NetOracle)
    (join : Url → String → Option Url) (f : Nat) (r : Request)
    (response : Response)
    (hsing : (Client.single_request c net r).2.1 = Except.ok response)
    (hstop : response.headers.get HeaderName.LOCATION = none ∨
      redirect_method response.status r.method = none) :
    Client.request_loop c net join (f+1) r =
      (Except.ok response,
       [⟨(Client.single_request c net r).1, Except.ok response⟩]) := by
  simp only [Client.request_loop]
  split
  · rename_i request2 e _evs heq
    rw [heq] at hsing
    simp at hsing
  · rename_i request2 response2 _evs heq
    have hr2 : (Client.single_request c net r).1 = request2 := congrArg Prod.fst heq
    rw [heq] at hsing
    simp only [Prod.snd, Prod.fst, Except.ok.injEq] at hsing
    subst hsing
    split
    · rw [hr2]
    · rename_i location2 heq2
      split
      · rw [hr2]
      · rename_i new_method2 heq3
        rcases hstop with h0 | h0
        · rw [heq2] at h0
          simp at h0
        · rw [heq3] at h0
          simp at h0

/-- Under oracles that always resolve, connect and exchange successfully, one
attempt on an "http" URL with a host returns the exchanged response. -/
theorem single_request_ok (c : Client) (net : NetOracle) (r : Request)
    (h : String) (a0 : SocketAddr) (addrs : List SocketAddr) (s : NetStream)
    (resp : Response)
    (hs : r.url.scheme = "http") (hh : r.url.host = some h)
    (hres : ∀ t, net.resolve t = Except.ok (a0 :: addrs))
    (hc1 : ∀ x, net.tcpConnect x = Except.ok s)
    (hc2 : ∀ t x, net.tcpConnectTimeout t x = Except.ok s)
    (hex : ∀ q st, net.exchange q st = Except.ok resp) :
    (Client.single_request c net r).2.1 = Except.ok resp := by
  have hs2 : (Client.prepare_request c r).url.scheme = "http" := by
    rw [prepare_request_url]; exact hs
  have hh2 : (Client.prepare_request c r).url.host = some h := by
    rw [prepare_request_url]; exact hh
  show (Client.single_request_core c net (Client.prepare_request c r)).1 = Except.ok resp
  unfold Client.single_request_core
  rw [hs2, if_pos rfl,
    get_and_validate_total_host net (Client.prepare_request c r).url 80 h hh2, hres]
  have honce : ∀ x, tcp_connect_once c net x = Except.ok s := by
    intro x
    cases ht : c.timeout <;> simp [tcp_connect_once, ht, hc1, hc2]
  have hpre : ∀ b ∈ ([] : List SocketAddr), ∃ e, tcp_connect_once c net b = Except.error e := by
    intro b hb
    simp at hb
  have hconn := connect_tcp_first_success c net [] addrs a0 s hpre (honce a0)
  rw [List.nil_append] at hconn
  simp [hconn, hex]

/-- When every attempt yields the same followable 302 response and every join
resolves to the same target, the loop exhausts its whole budget and ends in
the too-many-redirects error naming that target. -/
theorem request_loop_all_redirect (c : Client) (net : NetOracle)
    (join : Url → String → Option Url) (target : Url) (h : String)
    (a0 : SocketAddr) (addrs : List SocketAddr) (s : NetStream)
    (resp : Response) (loc : HeaderValue)
    (hs : target.scheme = "http") (hh : target.host = some h)
    (hres : ∀ t, net.resolve t = Except.ok (a0 :: addrs))
    (hc1 : ∀ x, net.tcpConnect x = Except.ok s)
    (hc2 : ∀ t x, net.tcpConnectTimeout t x = Except.ok s)
    (hex : ∀ q st, net.exchange q st = Except.ok resp)
    (hloc : resp.headers.get HeaderName.LOCATION = some loc)
    (hst : resp.status = Status.FOUND)
    (hjoin : ∀ u, join u loc = some target) :
    ∀ (f : Nat) (r : Request), r.url = target →
      (Client.request_loop c net join f r).1 =
        Except.error ⟨ErrorKind.other,
          too_many_redirects_msg (c.redirection_limit + 1) target⟩ ∧
      (Client.request_loop c net join f r).2.length = f := by
  intro f
  induction f with
  | zero =>
      intro r hu
      simp [Client.request_loop, hu]
  | succ f ih =>
      intro r hu
      have hs2 : r.url.scheme = "http" := by rw [hu]; exact hs
      have hh2 : r.url.host = some h := by rw [hu]; exact hh
      have hsing := single_request_ok c net r h a0 addrs s resp hs2 hh2 hres hc1 hc2 hex
      have hrm : redirect_method resp.status r.method =
          some (if r.method = Method.HEAD then Method.HEAD else Method.GET) := by
        rw [hst]
        exact redirect_method_3xx _ _ (Or.inr (Or.inl rfl))
      have hstep := request_loop_follows c net join f r resp loc
        (if r.method = Method.HEAD then Method.HEAD else Method.GET) target
        hsing hloc hrm (hjoin _)
      obtain ⟨ihres, ihlen⟩ := ih (build_redirect
        (if r.method = Method.HEAD then Method.HEAD else Method.GET) target
        (Client.single_request c net r).1) (build_redirect_url _ _ _)
      constructor
      · rw [hstep]
        exact ihres
      · rw [hstep]
        simp only [List.length_cons]
        rw [ihlen]

theorem getEntry_ne_none_of_mem (l : List (HeaderName × HeaderValue))
    (n : HeaderName) (hm : n ∈ l.map Prod.fst) :
    Headers.getEntry l n ≠ none := by
  induction l with
  | nil => simp at hm
  | cons p rest ih =>
      by_cases hp : p.1 = n
      · simp [Headers.getEntry, hp]
      · simp only [List.map_cons, List.mem_cons] at hm
        rcases hm with hm | hm
        · exact absurd hm.symm hp
        · simp only [Headers.getEntry, if_neg hp]
          exact ih hm

theorem mem_of_getElem_some {α : Type} (l : List α) (i : Nat) (a : α)
    (h : l[i]? = some a) : a ∈ l := by
  induction l generalizing i with
  | nil => simp at h
  | cons x rest ih =>
      cases i with
      | zero =>
          simp only [List.getElem?_cons_zero, Option.some_inj] at h
          subst h
          exact List.mem_cons_self x rest
      | succ i =>
          simp only [List.getElem?_cons_succ] at h
          exact List.mem_cons_of_mem x (ih i h)

/-- A step lemma: when the attempt itself fails, the loop aborts with that
error after recording the one attempt. -/
theorem request_loop_error (c : Client) (net : NetOracle)
    (join : Url → String → Option Url) (f : Nat) (r : Request) (e : IOError)
    (hsing : (Client.single_request c net r).2.1 = Except.error e) :
    Client.request_loop c net join (f+1) r =
      (Except.error e, [⟨(Client.single_request c net r).1, Except.error e⟩]) := by
  simp only [Client.request_loop]
  split
  · rename_i request2 e2 _evs heq
    have hr2 : (Client.single_request c net r).1 = request2 := congrArg Prod.fst heq
    rw [heq] at hsing
    simp only [Prod.snd, Prod.fst, Except.error.injEq] at hsing
    subst hsing
    rw [hr2]
  · rename_i request2 response2 _evs heq
    rw [heq] at hsing
    simp at hsing

/-! ## The claims -/

/-- Claim C6: per attempt, before sending, the configured default User-Agent
is set only when the request does not already carry one, a caller-supplied
User-Agent is left unchanged, and Connection is unconditionally forced to
"close". -/
theorem default_headers_per_attempt (c : Client) (req : Request) :
    (Client.prepare_request c req).headers.get HeaderName.CONNECTION =
      some connection_close ∧
    (∀ ua, c.user_agent = some ua →
      req.headers.contains HeaderName.USER_AGENT = false →
      (Client.prepare_request c req).headers.get HeaderName.USER_AGENT = some ua) ∧
    (req.headers.contains HeaderName.USER_AGENT = true →
      (Client.prepare_request c req).headers.get HeaderName.USER_AGENT =
        req.headers.get HeaderName.USER_AGENT) := by
  have hne : HeaderName.USER_AGENT ≠ HeaderName.CONNECTION := by decide
  refine ⟨?_, ?_, ?_⟩
  · exact Headers.get_set_self _ _ _
  · intro ua hua hnc
    show ((set_header_fallback req HeaderName.USER_AGENT c.user_agent).headers.set
        HeaderName.CONNECTION connection_close).get HeaderName.USER_AGENT = some ua
    rw [Headers.get_set_ne _ _ _ _ hne]
    simp only [hua, set_header_fallback, hnc, Bool.false_eq_true, if_false]
    exact Headers.get_set_self _ _ _
  · intro hcont
    show ((set_header_fallback req HeaderName.USER_AGENT c.user_agent).headers.set
        HeaderName.CONNECTION connection_close).get HeaderName.USER_AGENT =
      req.headers.get HeaderName.USER_AGENT
    rw [Headers.get_set_ne _ _ _ _ hne]
    cases hua : c.user_agent with
    | none => simp [set_header_fallback]
    | some ua => simp [set_header_fallback, hcont]

/-- Claim C7: the request built for a followed redirect carries exactly the
computed method, the resolved URL, and, name by name, every header of the
just-sent request. -/
theorem redirect_request_header_copy (m : Method) (u : Url) (r : Request) :
    (build_redirect m u r).method = m ∧ (build_redirect m u r).url = u ∧
    (r.headers.NamesNodup → ∀ n,
      (build_redirect m u r).headers.get n = r.headers.get n) := by
  refine ⟨rfl, rfl, ?_⟩
  intro hnd n
  show (r.headers.entries.foldl (fun h p => h.set p.1 p.2) Headers.empty).get n =
    r.headers.get n
  cases hg : r.headers.get n with
  | some v =>
      exact fold_set_get_of_getEntry_some r.headers.entries Headers.empty n v hnd hg
  | none =>
      have hnm : n ∉ r.headers.entries.map Prod.fst := by
        intro hm
        exact getEntry_ne_none_of_mem _ _ hm hg
      rw [fold_set_get_of_not_mem r.headers.entries Headers.empty n hnm]
      rfl

/-- Claim C8: a URL scheme other than "http" and "https" is rejected with an
`InvalidInput` error before any network operation (empty event trace), and
the whole call fails with that same error. -/
theorem unsupported_scheme_rejected (c : Client) (net : NetOracle)
    (join : Url → String → Option Url) (req : Request)
    (h1 : req.url.scheme ≠ "http") (h2 : req.url.scheme ≠ "https") :
    Client.single_request c net req =
      (Client.prepare_request c req,
       Except.error (invalid_input_error (scheme_error_msg req.url.scheme)), []) ∧
    (Client.request c net join req).1 =
      Except.error (invalid_input_error (scheme_error_msg req.url.scheme)) := by
  have hs1 : (Client.prepare_request c req).url.scheme ≠ "http" := by
    rw [prepare_request_url]; exact h1
  have hs2 : (Client.prepare_request c req).url.scheme ≠ "https" := by
    rw [prepare_request_url]; exact h2
  have hcore : Client.single_request_core c net (Client.prepare_request c req) =
      (Except.error (invalid_input_error (scheme_error_msg req.url.scheme)), []) := by
    unfold Client.single_request_core
    rw [if_neg hs1, if_neg hs2, prepare_request_url]
  constructor
  · show (Client.prepare_request c req,
        Client.single_request_core c net (Client.prepare_request c req)) =
      (Client.prepare_request c req,
       Except.error (invalid_input_error (scheme_error_msg req.url.scheme)), [])
    rw [hcore]
  · have hsing : (Client.single_request c net req).2.1 =
        Except.error (invalid_input_error (scheme_error_msg req.url.scheme)) := by
      show (Client.single_request_core c net (Client.prepare_request c req)).1 =
        Except.error (invalid_input_error (scheme_error_msg req.url.scheme))
      rw [hcore]
    show (Client.request_loop c net join (c.redirection_limit + 1) req).1 =
      Except.error (invalid_input_error (scheme_error_msg req.url.scheme))
    rw [request_loop_error c net join c.redirection_limit req _ hsing]

/-- Claim C9: the port used for the resolution target is the URL's explicit
port when present and the scheme default (80 for "http", 443 for "https")
otherwise; `connect_tls` uses the same explicit-or-443 port. -/
theorem resolution_port_selection :
    (∀ (url : Url) (d p : Nat), url.port = some p → resolution_port url d = p) ∧
    (∀ (url : Url) (d : Nat), url.port = none → resolution_port url d = d) ∧
    (∀ (c : Client) (net : NetOracle) (req : Request) (h : String),
      req.url.host = some h →
      (req.url.scheme = "http" →
        (Client.single_request c net req).2.2.head? =
          some (NetEvent.resolveEv (h ++ ":" ++ toString (resolution_port req.url 80)))) ∧
      (req.url.scheme = "https" →
        (Client.single_request c net req).2.2.head? =
          some (NetEvent.resolveEv (h ++ ":" ++ toString (resolution_port req.url 443))))) ∧
    (∀ (c : Client) (net : NetOracle) (url : Url) (h : String),
      url.host = some h →
      (Client.connect_tls c net url).2 =
        [NetEvent.tlsConnectEv h (resolution_port url 443) c.timeout]) := by
  refine ⟨?_, ?_, ?_, ?_⟩
  · intro url d p hp
    simp [resolution_port, hp]
  · intro url d hp
    simp [resolution_port, hp]
  · intro c net req h hh
    have hh2 : (Client.prepare_request c req).url.host = some h := by
      rw [prepare_request_url]; exact hh
    constructor
    · intro hs
      have hs2 : (Client.prepare_request c req).url.scheme = "http" := by
        rw [prepare_request_url]; exact hs
      have h3 := single_request_core_http_first_event c net
        (Client.prepare_request c req) h hh2 hs2
      rw [prepare_request_url] at h3
      exact h3
    · intro hs
      have hs2 : (Client.prepare_request c req).url.scheme = "https" := by
        rw [prepare_request_url]; exact hs
      have h3 := single_request_core_https_first_event c net
        (Client.prepare_request c req) h hh2 hs2
      rw [prepare_request_url] at h3
      exact h3
  · intro c net url h hh
    exact congrArg Prod.snd (connect_tls_single_attempt c net url h hh)

/-- Claim C10: for a URL whose host component is present, the DNS-failure
branch of `get_and_validate_socket_addresses` never panics: the `unwrap` is
only reached after the host has been established to exist (panic is modelled
as the `none` result). -/
theorem dns_failure_branch_no_panic (net : NetOracle) (url : Url)
    (d : Nat) (h : String) (hh : url.host_str = some h) :
    (get_and_validate_socket_addresses net url d).isSome = true :=
  get_and_validate_isSome net url d

/-- Total case analysis of one unfolding of the loop: the attempt failed, the
response was terminal (no Location, or a status/method the rewrite rejects),
the Location failed to join, or the redirect was followed. -/
theorem request_loop_succ_cases (c : Client) (net : NetOracle)
    (join : Url → String → Option Url) (f : Nat) (r : Request) :
    (∃ e, (Client.single_request c net r).2.1 = Except.error e ∧
      Client.request_loop c net join (f+1) r =
        (Except.error e,
         [⟨(Client.single_request c net r).1, Except.error e⟩])) ∨
    (∃ response, (Client.single_request c net r).2.1 = Except.ok response ∧
      (response.headers.get HeaderName.LOCATION = none ∨
        redirect_method response.status r.method = none) ∧
      Client.request_loop c net join (f+1) r =
        (Except.ok response,
         [⟨(Client.single_request c net r).1, Except.ok response⟩])) ∨
    (∃ response location,
      (Client.single_request c net r).2.1 = Except.ok response ∧
      response.headers.get HeaderName.LOCATION = some location ∧
      join (Client.single_request c net r).1.url location = none ∧
      Client.request_loop c net join (f+1) r =
        (Except.error (invalid_data_error (invalid_location_msg location)),
         [⟨(Client.single_request c net r).1, Except.ok response⟩])) ∨
    (∃ response location new_method new_url,
      (Client.single_request c net r).2.1 = Except.ok response ∧
      response.headers.get HeaderName.LOCATION = some location ∧
      redirect_method response.status r.method = some new_method ∧
      join (Client.single_request c net r).1.url location = some new_url ∧
      Client.request_loop c net join (f+1) r =
        ((Client.request_loop c net join f
            (build_redirect new_method new_url (Client.single_request c net r).1)).1,
         ⟨(Client.single_request c net r).1, Except.ok response⟩ ::
           (Client.request_loop c net join f
             (build_redirect new_method new_url (Client.single_request c net r).1)).2)) := by
  simp only [Client.request_loop]
  split
  · rename_i request2 e _evs heq
    have h3 : (Client.single_request c net r).1 = request2 := congrArg Prod.fst heq
    refine Or.inl ⟨e, ?_, ?_⟩
    · rw [heq]
    · rw [h3]
  · rename_i request2 response _evs heq
    have h3 : (Client.single_request c net r).1 = request2 := congrArg Prod.fst heq
    have h4 : (Client.single_request c net r).2.1 = Except.ok response := by rw [heq]
    split
    · rename_i heq2
      exact Or.inr (Or.inl ⟨response, h4, Or.inl heq2, by rw [h3]⟩)
    · rename_i location heq2
      split
      · rename_i heq3
        exact Or.inr (Or.inl ⟨response, h4, Or.inr heq3, by rw [h3]⟩)
      · rename_i new_method heq3
        split
        · rename_i heq4
          refine Or.inr (Or.inr (Or.inl ⟨response, location, h4, heq2, ?_, ?_⟩))
          · rw [h3]
            exact heq4
          · rw [h3]
        · rename_i new_url heq4
          refine Or.inr (Or.inr (Or.inr ⟨response, location, new_method, new_url,
            h4, heq2, heq3, ?_, ?_⟩))
          · rw [h3]
            exact heq4
          · rw [h3]

/-- With fuel left, the loop always performs at least one attempt. -/
theorem request_loop_trace_ne_nil (c : Client) (net : NetOracle)
    (join : Url → String → Option Url) (f : Nat) (r : Request) :
    (Client.request_loop c net join (f+1) r).2 ≠ [] := by
  rcases request_loop_succ_cases c net join f r with
    ⟨e, _, h⟩ | ⟨response, _, _, h⟩ | ⟨response, location, _, _, _, h⟩ |
    ⟨response, location, new_method, new_url, _, _, _, _, h⟩ <;>
    · rw [h]
      simp
/-- Run-general exhaustion: in any run whose final attempt still got a
followable redirect (a Location header, a status/method the rewrite accepts,
and a Location that joins), the loop spent its entire fuel and ends in the
too-many-redirects error naming that final join result. -/
theorem request_loop_last_followed (c : Client) (net : NetOracle)
    (join : Url → String → Option Url) :
    ∀ (f : Nat) (r : Request) (a : Attempt) (rsp : Response)
      (loc : HeaderValue) (m : Method) (u : Url),
      (Client.request_loop c net join f r).2.getLast? = some a →
      a.result = Except.ok rsp →
      rsp.headers.get HeaderName.LOCATION = some loc →
      redirect_method rsp.status a.sent.method = some m →
      join a.sent.url loc = some u →
      (Client.request_loop c net join f r).1 =
        Except.error ⟨ErrorKind.other,
          too_many_redirects_msg (c.redirection_limit + 1) u⟩ ∧
      (Client.request_loop c net join f r).2.length = f := by
  intro f
  induction f with
  | zero =>
      intro r a rsp loc m u hlast _hres _hloc _hrm _hjoin
      simp [Client.request_loop] at hlast
  | succ f ih =>
      intro r a rsp loc m u hlast hres hloc hrm hjoin
      have hm0 : (Client.single_request c net r).1.method = r.method := by
        rw [single_request_fst, prepare_request_method]
      rcases request_loop_succ_cases c net join f r with
        ⟨e, h1, h2⟩ | ⟨response, h1, hstop, h2⟩ |
        ⟨response, location, h1, h2loc, h2join, h2⟩ |
        ⟨response, location, new_method, new_url, h1, h2loc, h2rm, h2join, h2⟩
      · rw [h2] at hlast
        simp only [List.getLast?_singleton, Option.some_inj] at hlast
        rw [← hlast] at hres
        simp at hres
      · rw [h2] at hlast
        simp only [List.getLast?_singleton, Option.some_inj] at hlast
        rw [← hlast] at hres hrm
        have hrr : response = rsp := by
          have h5 : Except.ok response = Except.ok rsp := hres
          cases h5
          rfl
        rcases hstop with h0 | h0
        · rw [← hrr, h0] at hloc
          cases hloc
        · have hm2 : redirect_method rsp.status r.method = some m := by
            rw [← hm0]
            exact hrm
          rw [← hrr, h0] at hm2
          cases hm2
      · rw [h2] at hlast
        simp only [List.getLast?_singleton, Option.some_inj] at hlast
        rw [← hlast] at hres hjoin
        have hrr : response = rsp := by
          have h5 : Except.ok response = Except.ok rsp := hres
          cases h5
          rfl
        have hl2 : location = loc := by
          rw [← hrr, h2loc] at hloc
          cases hloc
          rfl
        have hj2 : join (Client.single_request c net r).1.url location = some u := by
          rw [hl2]
          exact hjoin
        rw [h2join] at hj2
        cases hj2
      · rw [h2] at hlast
        cases f with
        | zero =>
            have hrest :
                (Client.request_loop c net join 0
                  (build_redirect new_method new_url
                    (Client.single_request c net r).1)).2 = [] := rfl
            rw [hrest] at hlast
            simp only [List.getLast?_singleton, Option.some_inj] at hlast
            rw [← hlast] at hres hjoin
            have hrr : response = rsp := by
              have h5 : Except.ok response = Except.ok rsp := hres
              cases h5
              rfl
            have hl2 : location = loc := by
              rw [← hrr, h2loc] at hloc
              cases hloc
              rfl
            have hu2 : new_url = u := by
              have hj2 : join (Client.single_request c net r).1.url location =
                  some u := by
                rw [hl2]
                exact hjoin
              rw [h2join] at hj2
              cases hj2
              rfl
            rw [h2]
            constructor
            · show (Client.request_loop c net join 0
                  (build_redirect new_method new_url
                    (Client.single_request c net r).1)).1 =
                Except.error ⟨ErrorKind.other,
                  too_many_redirects_msg (c.redirection_limit + 1) u⟩
              rw [← hu2]
              simp [Client.request_loop, build_redirect]
            · show (⟨(Client.single_request c net r).1, Except.ok response⟩ ::
                  (Client.request_loop c net join 0
                    (build_redirect new_method new_url
                      (Client.single_request c net r).1)).2).length = 0 + 1
              rw [hrest]
              rfl
        | succ f2 =>
            have hne := request_loop_trace_ne_nil c net join f2
              (build_redirect new_method new_url (Client.single_request c net r).1)
            have hlast2 : (Client.request_loop c net join (f2+1)
                (build_redirect new_method new_url
                  (Client.single_request c net r).1)).2.getLast? = some a := by
              rcases hcons : (Client.request_loop c net join (f2+1)
                  (build_redirect new_method new_url
                    (Client.single_request c net r).1)).2 with _ | ⟨y, ys⟩
              · exact absurd hcons hne
              · rw [hcons, List.getLast?_cons_cons] at hlast
                exact hlast
            obtain ⟨ih1, ih2⟩ := ih
              (build_redirect new_method new_url (Client.single_request c net r).1)
              a rsp loc m u hlast2 hres hloc hrm hjoin
            rw [h2]
            exact ⟨ih1, by simp [ih2]⟩


/-- Claim C1: one call performs at most `redirection_limit + 1` attempts
(invocations of `single_request`); and in any run whose final attempt still
received a response carrying a Location header with a followable status
(whose Location joins to a target `u`), the call has spent the whole budget
and fails with the too-many-redirects error naming `u` — the last
redirection target — instead of performing another attempt. -/
theorem request_attempt_budget :
    (∀ (c : Client) (net : NetOracle) (join : Url → String → Option Url)
        (r : Request),
      (Client.request c net join r).2.length ≤ c.redirection_limit + 1) ∧
    (∀ (c : Client) (net : NetOracle) (join : Url → String → Option Url)
        (r : Request) (a : Attempt) (rsp : Response) (loc : HeaderValue)
        (m : Method) (u : Url),
      (Client.request c net join r).2.getLast? = some a →
      a.result = Except.ok rsp →
      rsp.headers.get HeaderName.LOCATION = some loc →
      redirect_method rsp.status a.sent.method = some m →
      join a.sent.url loc = some u →
      (Client.request c net join r).1 =
        Except.error ⟨ErrorKind.other,
          too_many_redirects_msg (c.redirection_limit + 1) u⟩ ∧
      (Client.request c net join r).2.length = c.redirection_limit + 1) := by
  constructor
  · intro c net join r
    exact request_loop_length_le c net join _ r
  · intro c net join r a rsp loc m u hlast hres hloc hrm hjoin
    exact request_loop_last_followed c net join _ r a rsp loc m u
      hlast hres hloc hrm hjoin

/-- Claim C2: whenever an attempt's response carries a Location header with
status 301, 302 or 303 and a further attempt follows, the followed request's
method is HEAD exactly when the original pre-redirect request used HEAD, and
GET otherwise — independently of the intermediate methods. -/
theorem redirect_301_303_method_rewrite (c : Client) (net : NetOracle)
    (join : Url → String → Option Url) (req : Request) (i : Nat)
    (a b : Attempt) (rsp : Response)
    (ha : ((Client.request c net join req).2)[i]? = some a)
    (hb : ((Client.request c net join req).2)[i+1]? = some b)
    (hres : a.result = Except.ok rsp)
    (hloc : (rsp.headers.get HeaderName.LOCATION).isSome = true)
    (hst : rsp.status = 301 ∨ rsp.status = 302 ∨ rsp.status = 303) :
    b.sent.method =
      (if req.method = Method.HEAD then Method.HEAD else Method.GET) := by
  obtain ⟨m, hm, hbm⟩ := request_loop_consec c net join _ req i a b rsp ha hb hres
  rw [redirect_method_3xx _ _ hst] at hm
  have hha : a ∈ (Client.request c net join req).2 :=
    mem_of_getElem_some _ i a ha
  have hinv := request_loop_head_inv c net join req.method _ req Iff.rfl a hha
  simp only [Option.some_inj] at hm
  rw [hbm, ← hm]
  by_cases hhead : req.method = Method.HEAD
  · rw [if_pos hhead, if_pos (hinv.mpr hhead)]
  · rw [if_neg hhead, if_neg (fun hcc => hhead (hinv.mp hcc))]

/-- Claim C3: a 307/308 redirect is followed only when the current method is
safe, and then with the method unchanged; with an unsafe method the response
is returned to the caller as-is after that single attempt. -/
theorem redirect_307_308_method_preservation (c : Client) (net : NetOracle)
    (join : Url → String → Option Url) (f : Nat) (req : Request)
    (rsp : Response) (loc : HeaderValue)
    (hres : (Client.single_request c net req).2.1 = Except.ok rsp)
    (hloc : rsp.headers.get HeaderName.LOCATION = some loc)
    (hst : rsp.status = 307 ∨ rsp.status = 308) :
    (req.method.is_safe = false →
      Client.request_loop c net join (f+1) req =
        (Except.ok rsp,
         [⟨(Client.single_request c net req).1, Except.ok rsp⟩])) ∧
    (req.method.is_safe = true → ∀ u,
      join (Client.single_request c net req).1.url loc = some u →
      Client.request_loop c net join (f+1) req =
        ((Client.request_loop c net join f
            (build_redirect req.method u (Client.single_request c net req).1)).1,
         ⟨(Client.single_request c net req).1, Except.ok rsp⟩ ::
           (Client.request_loop c net join f
             (build_redirect req.method u (Client.single_request c net req).1)).2)) := by
  constructor
  · intro hNotSafe
    refine request_loop_stops c net join f req rsp hres (Or.inr ?_)
    rcases hst with h | h <;>
      simp [redirect_method, h, Status.MOVED_PERMANENTLY, Status.FOUND,
        Status.SEE_OTHER, Status.TEMPORARY_REDIRECT, Status.PERMANENT_REDIRECT,
        hNotSafe]
  · intro hsafe u hjoin
    refine request_loop_follows c net join f req rsp loc req.method u hres hloc ?_ hjoin
    rcases hst with h | h <;>
      simp [redirect_method, h, Status.MOVED_PERMANENTLY, Status.FOUND,
        Status.SEE_OTHER, Status.TEMPORARY_REDIRECT, Status.PERMANENT_REDIRECT,
        hsafe]

/-- Claim C5: an attempt whose response has no Location header, a status
outside 301/302/303/307/308, or a 307/308 status with an unsafe method makes
the call terminate, returning exactly that response after that single
attempt. -/
theorem non_redirect_response_returned_as_is (c : Client) (net : NetOracle)
    (join : Url → String → Option Url) (f : Nat) (req : Request)
    (rsp : Response)
    (hres : (Client.single_request c net req).2.1 = Except.ok rsp)
    (hcond : rsp.headers.get HeaderName.LOCATION = none ∨
      (rsp.status ≠ 301 ∧ rsp.status ≠ 302 ∧ rsp.status ≠ 303 ∧
       rsp.status ≠ 307 ∧ rsp.status ≠ 308) ∨
      ((rsp.status = 307 ∨ rsp.status = 308) ∧ req.method.is_safe = false)) :
    Client.request_loop c net join (f+1) req =
      (Except.ok rsp,
       [⟨(Client.single_request c net req).1, Except.ok rsp⟩]) := by
  refine request_loop_stops c net join f req rsp hres ?_
  rcases hcond with h | h | h
  · exact Or.inl h
  · refine Or.inr ?_
    obtain ⟨h1, h2, h3, h4, h5⟩ := h
    simp [redirect_method, Status.MOVED_PERMANENTLY, Status.FOUND, Status.SEE_OTHER,
      Status.TEMPORARY_REDIRECT, Status.PERMANENT_REDIRECT, h1, h2, h3, h4, h5]
  · refine Or.inr ?_
    obtain ⟨h1, h2⟩ := h
    rcases h1 with h | h <;>
      simp [redirect_method, h, Status.MOVED_PERMANENTLY, Status.FOUND,
        Status.SEE_OTHER, Status.TEMPORARY_REDIRECT, Status.PERMANENT_REDIRECT, h2]

/-- Claim C4 (amended): under the "http" scheme the resolver candidates are
attempted in order — an empty sequence yields the synthetic connect failure,
the first successfully opened stream is returned, and when all candidates
fail the last candidate's error is returned; under the "https" scheme the
candidates are ignored after validation and a single TLS connection to the
URL's host and explicit-or-443 port is attempted instead (no per-candidate
TCP connect ever occurs). -/
theorem dispatch_candidate_iteration_amended :
    (∀ (c : Client) (net : NetOracle),
      Client.connect_tcp c net [] =
        (Except.error (invalid_input_error not_resolved_msg), [])) ∧
    (∀ (c : Client) (net : NetOracle) (pre post : List SocketAddr)
        (a : SocketAddr) (s : NetStream),
      (∀ b ∈ pre, ∃ e, tcp_connect_once c net b = Except.error e) →
      tcp_connect_once c net a = Except.ok s →
      Client.connect_tcp c net (pre ++ a :: post) =
        (Except.ok s,
         (pre ++ [a]).map (fun x => NetEvent.tcpConnectEv x c.timeout))) ∧
    (∀ (c : Client) (net : NetOracle) (addrs : List SocketAddr) (hne : addrs ≠ []),
      (∀ b ∈ addrs, ∃ e, tcp_connect_once c net b = Except.error e) →
      Client.connect_tcp c net addrs =
        (tcp_connect_once c net (addrs.getLast hne),
         addrs.map (fun x => NetEvent.tcpConnectEv x c.timeout))) ∧
    (∀ (c : Client) (net : NetOracle) (url : Url) (h : String),
      url.host = some h →
      Client.connect_tls c net url =
        ((match c.timeout with
          | some timeout => net.tlsConnectTimeout h timeout (resolution_port url 443)
          | none => net.tlsConnect h (resolution_port url 443)),
         [NetEvent.tlsConnectEv h (resolution_port url 443) c.timeout])) ∧
    (∀ (c : Client) (net : NetOracle) (r : Request),
      r.url.scheme = "https" →
      ∀ a t, NetEvent.tcpConnectEv a t ∉ (Client.single_request c net r).2.2) := by
  refine ⟨?_, ?_, ?_, ?_, ?_⟩
  · intro c net
    rfl
  · intro c net pre post a s hpre ha
    exact connect_tcp_first_success c net pre post a s hpre ha
  · intro c net addrs hne hall
    exact foldl_connect_step_last_error c net addrs hne hall
      (invalid_input_error not_resolved_msg) []
  · intro c net url h hh
    exact connect_tls_single_attempt c net url h hh
  · intro c net r hs
    exact single_request_https_no_tcp_event c net r hs

/-! ## Concrete fixtures used by the witnesses and the counterexample -/

/-- A client with no timeout, no default User-Agent and redirection limit 2. -/
def client_w : Client := ⟨none, none, 2⟩

/-- A client with no timeout, no default User-Agent and redirection limit 0. -/
def client_c4 : Client := ⟨none, none, 0⟩

/-- A concrete "http" URL with a host, used as a constant redirect target. -/
def url_w : Url := ⟨"http", some ("h"), none, "/b"⟩

/-- A second concrete "http" URL with another host. -/
def url2_w : Url := ⟨"http", some ("h2"), none, "/c"⟩

/-- A concrete "http" URL with an explicit port. -/
def url9_w : Url := ⟨"http", some ("h"), some 8080, "/"⟩

/-- A concrete "https" URL. -/
def url_c4 : Url := ⟨"https", some ("h"), none, "/"⟩

/-- A concrete "ftp" URL. -/
def url8_w : Url := ⟨"ftp", some ("h"), none, "/"⟩

/-- A 200 response without headers. -/
def resp200_w : Response := ⟨200, ⟨[]⟩⟩

/-- A 302 response carrying a Location header. -/
def resp302_w : Response := ⟨302, ⟨[(HeaderName.LOCATION, "/b")]⟩⟩

/-- A 307 response carrying a Location header. -/
def resp307_w : Response := ⟨307, ⟨[(HeaderName.LOCATION, "/b")]⟩⟩

/-- A concrete resolved endpoint. -/
def addr_a : SocketAddr := "1.2.3.4:80"

/-- An oracle where everything succeeds and every exchange yields the 302. -/
def net_w : NetOracle :=
  ⟨fun _ => Except.ok [addr_a], fun _ => Except.ok 1, fun _ _ => Except.ok 1,
   fun _ _ => Except.ok 2, fun _ _ _ => Except.ok 2,
   fun _ _ => Except.ok resp302_w⟩

/-- An oracle that answers 302 on `url_w` and 200 elsewhere. -/
def net2_w : NetOracle :=
  ⟨fun _ => Except.ok [addr_a], fun _ => Except.ok 1, fun _ _ => Except.ok 1,
   fun _ _ => Except.ok 2, fun _ _ _ => Except.ok 2,
   fun q _ => if q.url = url_w then Except.ok resp302_w else Except.ok resp200_w⟩

/-- An oracle where every exchange yields the 307. -/
def net3_w : NetOracle :=
  ⟨fun _ => Except.ok [addr_a], fun _ => Except.ok 1, fun _ _ => Except.ok 1,
   fun _ _ => Except.ok 2, fun _ _ _ => Except.ok 2,
   fun _ _ => Except.ok resp307_w⟩

/-- An oracle where every exchange yields the 200. -/
def net5_w : NetOracle :=
  ⟨fun _ => Except.ok [addr_a], fun _ => Except.ok 1, fun _ _ => Except.ok 1,
   fun _ _ => Except.ok 2, fun _ _ _ => Except.ok 2,
   fun _ _ => Except.ok resp200_w⟩

/-- An oracle whose resolver yields an empty candidate list yet whose other
operations succeed. -/
def net_c4 : NetOracle :=
  ⟨fun _ => Except.ok [], fun _ => Except.ok 1, fun _ _ => Except.ok 1,
   fun _ _ => Except.ok 5, fun _ _ _ => Except.ok 5,
   fun _ _ => Except.ok resp200_w⟩

/-- An oracle whose resolver always fails. -/
def net10_w : NetOracle :=
  ⟨fun _ => Except.error (invalid_input_error ("dns down")), fun _ => Except.ok 1,
   fun _ _ => Except.ok 1, fun _ _ => Except.ok 2, fun _ _ _ => Except.ok 2,
   fun _ _ => Except.ok resp200_w⟩

/-- A join collaborator resolving everything to `url_w`. -/
def join_w : Url → String → Option Url := fun _ _ => some url_w

/-- A join collaborator resolving everything to `url2_w`. -/
def join2_w : Url → String → Option Url := fun _ _ => some url2_w

/-- A GET request for `url_w`. -/
def req_w : Request := ⟨Method.GET, url_w, ⟨[]⟩⟩

/-- A POST request for `url_w`. -/
def req3_w : Request := ⟨Method.POST, url_w, ⟨[]⟩⟩

/-- A GET request for `url9_w`. -/
def req9_w : Request := ⟨Method.GET, url9_w, ⟨[]⟩⟩

/-- A GET request for the "https" URL. -/
def req_c4 : Request := ⟨Method.GET, url_c4, ⟨[]⟩⟩

/-- A GET request for the "ftp" URL. -/
def req8_w : Request := ⟨Method.GET, url8_w, ⟨[]⟩⟩

/-- The first attempt of the `net2_w` run. -/
def attempt_a_w : Attempt :=
  ⟨⟨Method.GET, url_w, ⟨[(HeaderName.CONNECTION, connection_close)]⟩⟩,
   Except.ok resp302_w⟩

/-- The second attempt of the `net2_w` run. -/
def attempt_b_w : Attempt :=
  ⟨⟨Method.GET, url2_w, ⟨[(HeaderName.CONNECTION, connection_close)]⟩⟩,
   Except.ok resp200_w⟩

/-- Claim C4, as frozen, is false on the code: with the "https" scheme and an
empty resolver candidate sequence the claim demands a synthetic
connect-failure error, but the call succeeds — the TLS path connects straight
to the host, ignoring the candidates. -/
theorem dispatch_candidate_iteration_counterexample :
    net_c4.resolve ("h:443") = Except.ok [] ∧
    (Client.single_request client_c4 net_c4 req_c4).2.1 = Except.ok resp200_w ∧
    ∀ e, (Client.single_request client_c4 net_c4 req_c4).2.1 ≠ Except.error e := by
  refine ⟨rfl, by decide, ?_⟩
  intro e hc
  have h2 : (Client.single_request client_c4 net_c4 req_c4).2.1 =
      Except.ok resp200_w := by decide
  rw [h2] at hc
  cases hc

/-! ## Witnesses -/

/-- The final attempt of the `net_w` run at limit 2. -/
def attempt_last_w : Attempt :=
  ⟨⟨Method.GET, url_w, ⟨[(HeaderName.CONNECTION, connection_close)]⟩⟩,
   Except.ok resp302_w⟩

/-- Witness for C1 at limit 2: the run's final attempt still got a followable
302, so three attempts happened and the call fails with the
too-many-redirects error naming the last redirection target. -/
theorem request_attempt_budget_witness :
    (Client.request client_w net_w join_w req_w).1 =
      Except.error ⟨ErrorKind.other, too_many_redirects_msg 3 url_w⟩ ∧
    (Client.request client_w net_w join_w req_w).2.length = 3 :=
  request_attempt_budget.2 client_w net_w join_w req_w attempt_last_w resp302_w
    ("/b") Method.GET url_w (by decide) rfl (by decide) (by decide) rfl

/-- Witness for C2: in the concrete two-attempt 302 run the followed request
is sent with GET. -/
theorem redirect_301_303_method_rewrite_witness :
    attempt_b_w.sent.method =
      (if req_w.method = Method.HEAD then Method.HEAD else Method.GET) :=
  redirect_301_303_method_rewrite client_w net2_w join2_w req_w 0
    attempt_a_w attempt_b_w resp302_w (by decide) (by decide) rfl (by decide)
    (Or.inr (Or.inl rfl))

/-- Witness for C3: a POST met by a 307 with a Location is not followed; the
307 response is returned after the single attempt. -/
theorem redirect_307_308_method_preservation_witness :
    Client.request_loop client_w net3_w join_w 1 req3_w =
      (Except.ok resp307_w,
       [⟨(Client.single_request client_w net3_w req3_w).1, Except.ok resp307_w⟩]) :=
  (redirect_307_308_method_preservation client_w net3_w join_w 0 req3_w resp307_w
    ("/b") (by decide) (by decide) (Or.inl rfl)).1 (by decide)

/-- Witness for C4 (amended): empty candidates give the synthetic error, a
single good candidate is connected to, and the "https" dispatch performs no
per-candidate TCP connect. -/
theorem dispatch_candidate_iteration_amended_witness :
    Client.connect_tcp client_w net_w [] =
      (Except.error (invalid_input_error not_resolved_msg), []) ∧
    Client.connect_tcp client_w net_w [addr_a] =
      (Except.ok 1, [NetEvent.tcpConnectEv addr_a none]) ∧
    NetEvent.tcpConnectEv addr_a none ∉
      (Client.single_request client_w net_c4 req_c4).2.2 :=
  ⟨dispatch_candidate_iteration_amended.1 client_w net_w,
   dispatch_candidate_iteration_amended.2.1 client_w net_w [] [] addr_a 1
     (fun b hb => absurd hb (List.not_mem_nil b)) rfl,
   dispatch_candidate_iteration_amended.2.2.2.2 client_w net_c4 req_c4 rfl
     addr_a none⟩

/-- Witness for C5: a 200 response without Location terminates the call with
that response after one attempt. -/
theorem non_redirect_response_returned_as_is_witness :
    Client.request_loop client_w net5_w join_w 3 req_w =
      (Except.ok resp200_w,
       [⟨(Client.single_request client_w net5_w req_w).1, Except.ok resp200_w⟩]) :=
  non_redirect_response_returned_as_is client_w net5_w join_w 2 req_w resp200_w
    (by decide) (Or.inl (by decide))

/-- A client with a configured default User-Agent. -/
def client6_w : Client := ⟨none, some ("agent-w"), 0⟩

/-- A request that already carries a caller-supplied User-Agent. -/
def req6b_w : Request :=
  ⟨Method.GET, url_w, ⟨[(HeaderName.USER_AGENT, "caller-agent")]⟩⟩

/-- Witness for C6: Connection forced to close, absent User-Agent filled with
the default, caller-supplied User-Agent left unchanged. -/
theorem default_headers_per_attempt_witness :
    (Client.prepare_request client6_w req_w).headers.get HeaderName.CONNECTION =
      some connection_close ∧
    (Client.prepare_request client6_w req_w).headers.get HeaderName.USER_AGENT =
      some ("agent-w") ∧
    (Client.prepare_request client6_w req6b_w).headers.get HeaderName.USER_AGENT =
      req6b_w.headers.get HeaderName.USER_AGENT :=
  ⟨(default_headers_per_attempt client6_w req_w).1,
   (default_headers_per_attempt client6_w req_w).2.1 ("agent-w") rfl (by decide),
   (default_headers_per_attempt client6_w req6b_w).2.2 (by decide)⟩

/-- A request carrying two distinct headers. -/
def req7_w : Request :=
  ⟨Method.POST, url_w, ⟨[(("x-alpha"), ("1")), (("x-beta"), ("2"))]⟩⟩

/-- Witness for C7: the rebuilt redirect request keeps method, URL and each
copied header value. -/
theorem redirect_request_header_copy_witness :
    (build_redirect Method.GET url2_w req7_w).method = Method.GET ∧
    (build_redirect Method.GET url2_w req7_w).url = url2_w ∧
    (build_redirect Method.GET url2_w req7_w).headers.get ("x-beta") =
      req7_w.headers.get ("x-beta") :=
  ⟨(redirect_request_header_copy Method.GET url2_w req7_w).1,
   (redirect_request_header_copy Method.GET url2_w req7_w).2.1,
   (redirect_request_header_copy Method.GET url2_w req7_w).2.2 (by decide)
     ("x-beta")⟩

/-- Witness for C8: the "ftp" request fails with the invalid-input scheme
error, with an empty event trace, and so does the whole call. -/
theorem unsupported_scheme_rejected_witness :
    Client.single_request client_w net_w req8_w =
      (Client.prepare_request client_w req8_w,
       Except.error (invalid_input_error (scheme_error_msg ("ftp"))), []) ∧
    (Client.request client_w net_w join_w req8_w).1 =
      Except.error (invalid_input_error (scheme_error_msg ("ftp"))) :=
  unsupported_scheme_rejected client_w net_w join_w req8_w (by decide) (by decide)

/-- Witness for C9: the explicit port 8080 overrides the scheme defaults and
is the one resolved and used for TLS. -/
theorem resolution_port_selection_witness :
    resolution_port url9_w 80 = 8080 ∧
    resolution_port url_w 80 = 80 ∧
    (Client.single_request client_w net_w req9_w).2.2.head? =
      some (NetEvent.resolveEv ("h:8080")) ∧
    (Client.connect_tls client_w net_w url9_w).2 =
      [NetEvent.tlsConnectEv ("h") 8080 none] :=
  ⟨resolution_port_selection.1 url9_w 80 8080 rfl,
   resolution_port_selection.2.1 url_w 80 rfl,
   ((resolution_port_selection.2.2.1 client_w net_w req9_w ("h") rfl).1 rfl).trans
     (by decide),
   (resolution_port_selection.2.2.2 client_w net_w url9_w ("h") rfl).trans
     (by decide)⟩

/-- Witness for C10: with a failing resolver and a present host, the embedded
function still returns a value (no panic). -/
theorem dns_failure_branch_no_panic_witness :
    (get_and_validate_socket_addresses net10_w url_w 80).isSome = true :=
  dns_failure_branch_no_panic net10_w url_w 80 ("h") rfl
